import Mathlib

/-!
Verification development for the AppGui core: the mutex-guarded serial
wrapper (`mutex_serial.py`) and the crash-artifact manager
(`crash_output_manager.py`).

The guard is modelled as a labelled transition system over thread
program counters: `__enter__` is `acquire` (take the lock) followed by
either `openOk` (the `if not self.is_open: self.open()` branch finishing
normally) or `openFail` (`self.open()` raising); note the source has no
try/finally around `open()`, so on `openFail` the lock stays held and the
raising thread leaves `__enter__` by exception.  `__exit__` is `close`
(`self.close()`) followed by `release` (`self.my_lock.release()`).
-/

namespace AppGui

/-- Program counter of one thread with respect to one MutexSerial guard. -/
inductive PC where
  | idle
  | entered
  | inside
  | failed
  | closing
  deriving DecidableEq

/-- State of one MutexSerial instance: the threading.Lock (recorded with
its holder as ghost information), the pySerial open flag, and each
thread's program counter. -/
structure GuardState where
  lock : Option Nat
  is_open : Bool
  pc : Nat → PC

/-- Pointwise update of a program-counter map. -/
def updPC (pc : Nat → PC) (t : Nat) (v : PC) : Nat → PC :=
  fun u => if u = t then v else pc u

/-- Transition labels: which line of `__enter__`/`__exit__` a thread runs. -/
inductive Lbl where
  | acquire (t : Nat)
  | openOk (t : Nat)
  | openFail (t : Nat)
  | close (t : Nat)
  | release (t : Nat)

/-- Interleaving semantics of `MutexSerial.__enter__`/`__exit__`.
`acquire` is `self.my_lock.acquire()` (blocks unless free); `openOk` is
the open-check finishing with the device open; `openFail` is
`self.open()` raising (only reachable when the device was closed, since
`open` is only called under `if not self.is_open`), after which the lock
is NOT released (no try/finally in the source); `close` is
`self.close()`; `release` is `self.my_lock.release()`. -/
inductive Step : GuardState → Lbl → GuardState → Prop where
  | acquire (s : GuardState) (t : Nat) :
      s.pc t = PC.idle → s.lock = none →
      Step s (Lbl.acquire t)
        { lock := some t, is_open := s.is_open, pc := updPC s.pc t PC.entered }
  | openOk (s : GuardState) (t : Nat) :
      s.pc t = PC.entered →
      Step s (Lbl.openOk t)
        { lock := s.lock, is_open := true, pc := updPC s.pc t PC.inside }
  | openFail (s : GuardState) (t : Nat) :
      s.pc t = PC.entered → s.is_open = false →
      Step s (Lbl.openFail t)
        { lock := s.lock, is_open := false, pc := updPC s.pc t PC.failed }
  | close (s : GuardState) (t : Nat) :
      s.pc t = PC.inside →
      Step s (Lbl.close t)
        { lock := s.lock, is_open := false, pc := updPC s.pc t PC.closing }
  | release (s : GuardState) (t : Nat) :
      s.pc t = PC.closing →
      Step s (Lbl.release t)
        { lock := none, is_open := s.is_open, pc := updPC s.pc t PC.idle }

/-- Initial state: lock free, device closed, all threads idle. -/
def initState : GuardState :=
  { lock := none, is_open := false, pc := fun _ => PC.idle }

/-- States reachable from the initial state by interleaved steps. -/
inductive Reachable : GuardState → Prop where
  | base : Reachable initState
  | step (s : GuardState) (l : Lbl) (s' : GuardState) :
      Reachable s → Step s l s' → Reachable s'

/-- Inductive invariant of the guard: any non-idle thread is the lock
holder (hence at most one); a free lock means a closed device; a thread
that has run `close` but not yet `release` sees a closed device. -/
def GuardInv (s : GuardState) : Prop :=
  (∀ t, s.pc t ≠ PC.idle → s.lock = some t) ∧
  (s.lock = none → s.is_open = false) ∧
  (∀ t, s.pc t = PC.closing → s.is_open = false)

/-- A thread holds the guard: it is between a successful `__enter__`
return and the lock release inside `__exit__`. -/
def Holds (s : GuardState) (t : Nat) : Prop :=
  s.pc t = PC.inside ∨ s.pc t = PC.closing

/-- No transition at all is enabled. -/
def Stuck (s : GuardState) : Prop :=
  ∀ l s', ¬ Step s l s'

/-- The device is closed whenever the lock is free. -/
def ClosedWhenFree (s : GuardState) : Prop :=
  s.lock = none → s.is_open = false

/-- Every `close` step leaves the device closed while the lock is still
held by the closing thread (close happens before release). -/
def CloseUncond (s : GuardState) : Prop :=
  ∀ t s', Step s (Lbl.close t) s' → s'.is_open = false ∧ s'.lock = some t

/-- Every `release` step ends with the lock free and the device closed. -/
def ReleaseClosed (s : GuardState) : Prop :=
  ∀ t s', Step s (Lbl.release t) s' → s'.is_open = false ∧ s'.lock = none

/-- State after thread 0 acquires the lock from the initial state. -/
def sAcq : GuardState :=
  { lock := some 0, is_open := false, pc := updPC (fun _ => PC.idle) 0 PC.entered }

/-- State after thread 0 additionally opens the device successfully. -/
def sIn : GuardState :=
  { lock := some 0, is_open := true, pc := updPC sAcq.pc 0 PC.inside }

/-- State after thread 0's `open()` raises inside `__enter__`. -/
def sFail : GuardState :=
  { lock := some 0, is_open := false, pc := updPC sAcq.pc 0 PC.failed }

/-!
Crash artifact manager (`crash_output_manager.py`).  Paths and file
contents are lists of characters; the filesystem is a map from path to
optional content plus a directory predicate; the process-wide logging
sink is the root logger's current target file.  `os.path.dirname(os.getcwd())`
is supplied as the environment parameter `parentDir`; the rendered
`traceback.format_exc()` text of the in-flight exception is supplied as
the parameter `tracebackText`.
-/

/-- Paths and file contents, as lists of characters. -/
abbrev Str := List Char

/-- The `\\` path separator used by the source's f-strings. -/
def sep : Str := ['\\']

/-- CPython `str.split` with separator `"."`: fields between occurrences
of the dot, empty fields kept, `[""]` on the empty string. -/
def pySplitDot : Str → List Str
  | [] => [[]]
  | c :: rest =>
    let rs := pySplitDot rest
    if c = '.' then [] :: rs
    else (c :: rs.headD []) :: rs.tail

/-- `output_file_name.split(".")[0]`: the first field of the split. -/
def splitDotHead (s : Str) : Str := (pySplitDot s).headD []

/-- The spec's base name: the input file name with everything from the
first `"."` onward removed (the whole name when no `"."` occurs). -/
def baseName (s : Str) : Str := s.takeWhile (fun c => c != '.')

/-- Filesystem state: file contents by path, and directory existence. -/
structure FS where
  files : Str → Option Str
  dirs : Str → Bool

/-- Process-wide logging configuration: the root logger's target file,
`none` before any `logging.basicConfig` call. -/
structure LoggingState where
  target : Option Str

/-- One formatted error-level record, using the root logger's default
format `levelname:name:message` plus the terminating newline. -/
def logRecord (msg : Str) : Str :=
  ("ERROR:root:".toList) ++ msg ++ ['\n']

/-- `logging.error(msg)`: append one error record to the configured
target file (the FileHandler opens in append mode, creating the file
when absent). -/
def logError (fs : FS) (lg : LoggingState) (msg : Str) : FS :=
  match lg.target with
  | none => fs
  | some p =>
      { fs with
        files := fun q =>
          if q = p then some ((fs.files p).getD [] ++ logRecord msg)
          else fs.files q }

/-- `if not os.path.isdir(p): os.mkdir(p)`. -/
def ensureDir (fs : FS) (p : Str) : FS :=
  if fs.dirs p then fs
  else { fs with dirs := fun q => if q = p then true else fs.dirs q }

/-- The fixed multi-line placeholder written when `optional_bool` is
true, exactly the concatenated f-string literals of the source. -/
def customLogMessage : Str :=
  ("\n\n[This is a custom logging.error message]\n\n| Here is a sentence!\n| \n| \n| Here is another sentence!\n| \n|").toList

/-- `f'{output_file_name.split(".")[0]}_CRASHLOG.log'`. -/
def output_crash_log_file_name (output_file_name : Str) : Str :=
  splitDotHead output_file_name ++ ("_CRASHLOG.log".toList)

/-- `f'{os.path.dirname(os.getcwd())}\\Crash Logs'`. -/
def output_crash_log_folder_path (parentDir : Str) : Str :=
  parentDir ++ sep ++ ("Crash Logs".toList)

/-- `f'{output_crash_log_folder_path}\\{output_crash_log_file_name}'`. -/
def output_crash_log_file_path (parentDir output_file_name : Str) : Str :=
  output_crash_log_folder_path parentDir ++ sep ++
    output_crash_log_file_name output_file_name

/-- `CrashOutputManager.crash_log_manager`: ensure the crash-log
directory, derive the log path, re-target the process-wide logging sink
to it (`logging.basicConfig(filename=..., force=True)` discards the
previous configuration, hence the prior `LoggingState` is unused), write
one error-level record (the traceback text, or the custom message when
`optional_bool` is set), and return the log path. -/
def crash_log_manager (parentDir tracebackText : Str) (fs : FS)
    (_lg : LoggingState) (output_file_name : Str)
    (optional_bool : Bool) : (FS × LoggingState) × Str :=
  let fs1 := ensureDir fs (output_crash_log_folder_path parentDir)
  let p := output_crash_log_file_path parentDir output_file_name
  let lg1 : LoggingState := { target := some p }
  let fs2 :=
    if !optional_bool then logError fs1 lg1 tracebackText
    else logError fs1 lg1 customLogMessage
  ((fs2, lg1), p)

/-- Failures of the relocation step (`shutil.move` raising). -/
inductive MoveErr where
  | relocateError
  deriving DecidableEq

/-- `shutil.move(src, dst)` for regular files: error when the source is
missing; otherwise the content ends up at `dst` and the source entry is
gone (renaming a path onto itself succeeds and leaves the file there). -/
def shutil_move (fs : FS) (src dst : Str) : Except MoveErr FS :=
  match fs.files src with
  | none => Except.error MoveErr.relocateError
  | some c =>
      Except.ok
        { fs with
          files := fun q =>
            if q = dst then some c
            else if q = src then none
            else fs.files q }

/-- `f'{output_file_name.split(".")[0]}_CRASHDUMP.txt'`. -/
def output_crash_data_file_name (output_file_name : Str) : Str :=
  splitDotHead output_file_name ++ ("_CRASHDUMP.txt".toList)

/-- `f'{os.path.dirname(os.getcwd())}\\Crash Data'`. -/
def output_crash_data_folder_path (parentDir : Str) : Str :=
  parentDir ++ sep ++ ("Crash Data".toList)

/-- `f'{output_crash_data_folder_path}\\{output_crash_data_file_name}'`. -/
def output_crash_data_file_path (parentDir output_file_name : Str) : Str :=
  output_crash_data_folder_path parentDir ++ sep ++
    output_crash_data_file_name output_file_name

/-- `CrashOutputManager.crash_data_manager`: ensure the crash-data
directory, derive the data path, move the file at `output_file_path`
there, and return the data path; a failed move propagates (as
`RelocateError`) with the directory-ensure already performed. -/
def crash_data_manager (parentDir : Str) (fs : FS)
    (output_file_name output_file_path : Str) : FS × Except MoveErr Str :=
  let fs1 := ensureDir fs (output_crash_data_folder_path parentDir)
  let p := output_crash_data_file_path parentDir output_file_name
  match shutil_move fs1 output_file_path p with
  | Except.error e => (fs1, Except.error e)
  | Except.ok fs2 => (fs2, Except.ok p)

/-- Two file maps agree everywhere except possibly at `p`. -/
def UnchangedExcept (f g : Str → Option Str) (p : Str) : Prop :=
  ∀ q, q ≠ p → g q = f q

/-- Directory predicates agree everywhere except possibly at `p`. -/
def DirsUnchangedExcept (fs fs' : FS) (p : Str) : Prop :=
  ∀ q, q ≠ p → fs'.dirs q = fs.dirs q

/-- `crash_data_manager` for name `n` overwrites the crash-data artifact
derived from `n` with the content of whatever source file it is given. -/
def Replaces (parentDir n : Str) : Prop :=
  ∀ (fs : FS) (path c : Str), fs.files path = some c →
    path ≠ output_crash_data_file_path parentDir n →
    (crash_data_manager parentDir fs n path).1.files
      (output_crash_data_file_path parentDir n) = some c

/-- Filesystem with no files and no directories. -/
def emptyFS : FS := { files := fun _ => none, dirs := fun _ => false }

/-- Logging sink before any configuration. -/
def noLog : LoggingState := { target := none }

/-- Concrete input name for the C4 scenario. -/
def c4name : Str := "s.txt".toList

/-- The derived crash-data path for `c4name`, used as the source path. -/
def c4src : Str := output_crash_data_file_path ['P'] c4name

/-- Filesystem holding one file, at `c4src`. -/
def c4fs : FS :=
  { files := fun q => if q = c4src then some ['x'] else none,
    dirs := fun _ => false }

/-- Filesystem holding one file at the one-character path `w`. -/
def c4wfs : FS :=
  { files := fun q => if q = ['w'] then some ['x'] else none,
    dirs := fun _ => false }

/-- First crash-log call of the C7 scenario, for name `run.txt`. -/
def c7run1 : (FS × LoggingState) × Str :=
  crash_log_manager ['P'] ['a'] emptyFS noLog ("run.txt".toList) false

/-- Second crash-log call of the C7 scenario, for name `run.bin`,
starting from the state the first call left behind. -/
def c7run2 : (FS × LoggingState) × Str :=
  crash_log_manager ['P'] ['b'] c7run1.1.1 c7run1.1.2 ("run.bin".toList) false

/-- First crash-log call of the C7 witness, for name `a.txt`. -/
def c7wA : (FS × LoggingState) × Str :=
  crash_log_manager ['P'] ['a'] emptyFS noLog ("a.txt".toList) false

/-- Second crash-log call of the C7 witness, for name `b.txt`. -/
def c7wB : (FS × LoggingState) × Str :=
  crash_log_manager ['P'] ['b'] c7wA.1.1 c7wA.1.2 ("b.txt".toList) false

theorem inv_initState : GuardInv initState := by
  refine ⟨fun t h => ?_, fun _ => rfl, fun t h => ?_⟩
  · exact absurd rfl h
  · exact absurd h (by simp [initState])

theorem step_preserves_inv (s : GuardState) (l : Lbl) (s' : GuardState)
    (hinv : GuardInv s) (hst : Step s l s') : GuardInv s' := by
  obtain ⟨h1, h2, h3⟩ := hinv
  cases hst with
  | acquire t hpc hlock =>
      refine ⟨fun u hu => ?_, fun h => ?_, fun u hu => ?_⟩
      · by_cases hut : u = t
        · simp [hut]
        · simp only [updPC, if_neg hut] at hu
          exact absurd (h1 u hu) (by simp [hlock])
      · simp at h
      · by_cases hut : u = t
        · simp [updPC, hut] at hu
        · simp only [updPC, if_neg hut] at hu
          exact absurd (h1 u (by simp [hu])) (by simp [hlock])
  | openOk t hpc =>
      have hl : s.lock = some t := h1 t (by simp [hpc])
      refine ⟨fun u hu => ?_, fun h => ?_, fun u hu => ?_⟩
      · by_cases hut : u = t
        · simp [hut, hl]
        · simp only [updPC, if_neg hut] at hu
          exact h1 u hu
      · simp only at h
        exact absurd hl (by simp [h])
      · by_cases hut : u = t
        · simp [updPC, hut] at hu
        · simp only [updPC, if_neg hut] at hu
          have := h1 u (by simp [hu])
          rw [hl] at this
          have : u = t := by
            have h' := Option.some.inj this
            exact h'.symm
          exact absurd (by rw [this] at hu; exact hu) (by simp [hpc, this])
  | openFail t hpc hopen =>
      have hl : s.lock = some t := h1 t (by simp [hpc])
      refine ⟨fun u hu => ?_, fun _ => rfl, fun u hu => ?_⟩
      · by_cases hut : u = t
        · simp [hut, hl]
        · simp only [updPC, if_neg hut] at hu
          exact h1 u hu
      · rfl
  | close t hpc =>
      have hl : s.lock = some t := h1 t (by simp [hpc])
      refine ⟨fun u hu => ?_, fun _ => rfl, fun u hu => ?_⟩
      · by_cases hut : u = t
        · simp [hut, hl]
        · simp only [updPC, if_neg hut] at hu
          exact h1 u hu
      · rfl
  | release t hpc =>
      have hl : s.lock = some t := h1 t (by simp [hpc])
      have hopen : s.is_open = false := h3 t hpc
      refine ⟨fun u hu => ?_, fun _ => hopen, fun u hu => ?_⟩
      · by_cases hut : u = t
        · simp [updPC, hut] at hu
        · simp only [updPC, if_neg hut] at hu
          have h' := h1 u hu
          rw [hl] at h'
          exact absurd (Option.some.inj h').symm hut
      · by_cases hut : u = t
        · simp [updPC, hut] at hu
        · simp only [updPC, if_neg hut] at hu
          have h' := h1 u (by simp [hu])
          rw [hl] at h'
          exact absurd (Option.some.inj h').symm hut

theorem reachable_inv (s : GuardState) (h : Reachable s) : GuardInv s := by
  induction h with
  | base => exact inv_initState
  | step s l s' _ hst ih => exact step_preserves_inv s l s' ih hst

theorem reach_sAcq : Reachable sAcq := by
  have h := Step.acquire initState 0 rfl rfl
  exact Reachable.step _ _ _ Reachable.base h

theorem reach_sIn : Reachable sIn := by
  have h := Step.openOk sAcq 0 (by decide)
  exact Reachable.step _ _ _ reach_sAcq h

theorem reach_sFail : Reachable sFail := by
  have h := Step.openFail sAcq 0 (by decide) rfl
  exact Reachable.step _ _ _ reach_sAcq h

/-- C1: in every reachable state of the guard's step relation, at most
one thread is between a successful Acquire (`__enter__`) and its
matching Release (`__exit__`): any two holders are equal. -/
theorem mutual_exclusion (s : GuardState) (t₁ t₂ : Nat) (hs : Reachable s)
    (h₁ : Holds s t₁) (h₂ : Holds s t₂) : t₁ = t₂ := by
  obtain ⟨hone, -, -⟩ := reachable_inv s hs
  have hn₁ : s.pc t₁ ≠ PC.idle := by
    rcases h₁ with h | h <;> simp [h]
  have hn₂ : s.pc t₂ ≠ PC.idle := by
    rcases h₂ with h | h <;> simp [h]
  have e₁ := hone t₁ hn₁
  have e₂ := hone t₂ hn₂
  rw [e₁] at e₂
  exact Option.some.inj e₂

theorem mutual_exclusion_witness :
    Holds sIn 0 ∧ (0 : Nat) = 0 :=
  ⟨Or.inl rfl, mutual_exclusion sIn 0 0 reach_sIn (Or.inl rfl) (Or.inl rfl)⟩

/-- C2 counterexample: from the reachable state in which thread 0 has
just taken the lock, a failing `open()` is a step to the concrete state
`sFail` in which the lock is still held — the code has no try/finally in
`__enter__`, so the lock is not released before the failure propagates. -/
theorem open_failure_lock_cex :
    Step sAcq (Lbl.openFail 0) sFail ∧ Reachable sFail ∧ sFail.lock ≠ none := by
  refine ⟨Step.openFail sAcq 0 (by decide) rfl, reach_sFail, by simp [sFail]⟩

/-- C2 (amended): if the device fails to open during Acquire, the
failure propagates to the caller but the guard's lock is NOT released:
in every reachable state with a failed acquisition, the failing thread
still holds the lock and no further transition is enabled — a subsequent
caller's Acquire on the same guard deadlocks. -/
theorem open_failure_deadlocks (s : GuardState) (t : Nat) (hs : Reachable s)
    (hf : s.pc t = PC.failed) : s.lock = some t ∧ Stuck s := by
  obtain ⟨h1, h2, h3⟩ := reachable_inv s hs
  have hl : s.lock = some t := h1 t (by simp [hf])
  have huniq : ∀ u, s.pc u ≠ PC.idle → u = t := by
    intro u hu
    have h' := h1 u hu
    rw [hl] at h'
    exact (Option.some.inj h').symm
  refine ⟨hl, fun l s' hst => ?_⟩
  cases hst with
  | acquire u hpc hlock =>
      rw [hlock] at hl
      exact Option.noConfusion hl
  | openOk u hpc =>
      have hu : u = t := huniq u (by simp [hpc])
      rw [hu, hf] at hpc
      exact PC.noConfusion hpc
  | openFail u hpc hopen =>
      have hu : u = t := huniq u (by simp [hpc])
      rw [hu, hf] at hpc
      exact PC.noConfusion hpc
  | close u hpc =>
      have hu : u = t := huniq u (by simp [hpc])
      rw [hu, hf] at hpc
      exact PC.noConfusion hpc
  | release u hpc =>
      have hu : u = t := huniq u (by simp [hpc])
      rw [hu, hf] at hpc
      exact PC.noConfusion hpc

/-- Witness for the amended C2 theorem at the concrete deadlocked state. -/
theorem open_failure_deadlocks_witness :
    sFail.lock = some 0 ∧ Stuck sFail :=
  open_failure_deadlocks sFail 0 reach_sFail rfl

/-- C3: in every reachable state of the guard (device initially closed),
the device is closed whenever no caller holds the lock; every `close`
step of `__exit__` leaves the device closed unconditionally while the
lock is still held (close precedes release), and every `release` step
frees the lock with the device closed. -/
theorem release_leaves_closed (s : GuardState) (hs : Reachable s) :
    ClosedWhenFree s ∧ CloseUncond s ∧ ReleaseClosed s := by
  obtain ⟨h1, h2, h3⟩ := reachable_inv s hs
  refine ⟨h2, fun t s' hst => ?_, fun t s' hst => ?_⟩
  · cases hst
    rename_i hpc
    exact ⟨rfl, h1 t (by simp [hpc])⟩
  · cases hst
    rename_i hpc
    exact ⟨h3 t hpc, rfl⟩

/-- Witness for C3 at a concrete reachable state. -/
theorem release_leaves_closed_witness :
    ClosedWhenFree sIn ∧ CloseUncond sIn ∧ ReleaseClosed sIn :=
  release_leaves_closed sIn reach_sIn

theorem ensureDir_files (fs : FS) (p : Str) :
    (ensureDir fs p).files = fs.files := by
  unfold ensureDir
  split <;> rfl

theorem ensureDir_dirs_self (fs : FS) (p : Str) :
    (ensureDir fs p).dirs p = true := by
  unfold ensureDir
  split
  · assumption
  · simp

theorem ensureDir_dirs_ne (fs : FS) (p q : Str) (h : q ≠ p) :
    (ensureDir fs p).dirs q = fs.dirs q := by
  unfold ensureDir
  split
  · rfl
  · simp [h]

theorem splitDotHead_eq_takeWhile (s : Str) : splitDotHead s = baseName s := by
  induction s with
  | nil => rfl
  | cons c rest ih =>
      by_cases h : c = '.'
      · subst h
        simp [splitDotHead, pySplitDot, baseName, List.takeWhile_cons]
      · simp only [splitDotHead, pySplitDot, baseName, List.takeWhile_cons] at ih ⊢
        rw [if_neg h, List.headD_cons]
        have hb : (c != '.') = true := by simp [h]
        rw [hb]
        simp only [if_true]
        exact congrArg (c :: ·) ih

theorem crash_log_manager_eq (parentDir tracebackText : Str) (fs : FS)
    (lg : LoggingState) (name : Str) (b : Bool) :
    (crash_log_manager parentDir tracebackText fs lg name b).2 =
      output_crash_log_file_path parentDir name ∧
    (crash_log_manager parentDir tracebackText fs lg name b).1.2.target =
      some (output_crash_log_file_path parentDir name) ∧
    (∀ q, (crash_log_manager parentDir tracebackText fs lg name b).1.1.files q =
      if q = output_crash_log_file_path parentDir name then
        some ((fs.files (output_crash_log_file_path parentDir name)).getD [] ++
          logRecord (if b then customLogMessage else tracebackText))
      else fs.files q) ∧
    (∀ q, (crash_log_manager parentDir tracebackText fs lg name b).1.1.dirs q =
      (ensureDir fs (output_crash_log_folder_path parentDir)).dirs q) := by
  cases b <;>
    refine ⟨rfl, rfl, fun q => ?_, fun q => ?_⟩ <;>
    simp [crash_log_manager, logError, ensureDir_files]

theorem crash_data_manager_missing (parentDir : Str) (fs : FS)
    (name path : Str) (h : fs.files path = none) :
    crash_data_manager parentDir fs name path =
      (ensureDir fs (output_crash_data_folder_path parentDir),
        Except.error MoveErr.relocateError) := by
  have hm : shutil_move (ensureDir fs (output_crash_data_folder_path parentDir))
      path (output_crash_data_file_path parentDir name) =
      Except.error MoveErr.relocateError := by
    unfold shutil_move
    rw [ensureDir_files, h]
  simp only [crash_data_manager]
  rw [hm]

theorem crash_data_manager_found (parentDir : Str) (fs : FS)
    (name path c : Str) (h : fs.files path = some c) :
    (crash_data_manager parentDir fs name path).2 =
      Except.ok (output_crash_data_file_path parentDir name) ∧
    (∀ q, (crash_data_manager parentDir fs name path).1.files q =
      if q = output_crash_data_file_path parentDir name then some c
      else if q = path then none else fs.files q) ∧
    (∀ q, (crash_data_manager parentDir fs name path).1.dirs q =
      (ensureDir fs (output_crash_data_folder_path parentDir)).dirs q) := by
  have hm : shutil_move (ensureDir fs (output_crash_data_folder_path parentDir))
      path (output_crash_data_file_path parentDir name) =
      Except.ok
        { ensureDir fs (output_crash_data_folder_path parentDir) with
          files := fun q =>
            if q = output_crash_data_file_path parentDir name then some c
            else if q = path then none
            else (ensureDir fs (output_crash_data_folder_path parentDir)).files q } := by
    unfold shutil_move
    rw [ensureDir_files, h]
  simp only [crash_data_manager]
  rw [hm]
  exact ⟨rfl, fun q => by simp [ensureDir_files], fun q => rfl⟩

/-- C5: for every input file name the base is the substring before the
first dot (the whole name when no dot occurs, with no error), and the
derived artifact names are that base with the fixed crash markers and
extensions appended. -/
theorem name_derivation (name : Str) :
    output_crash_log_file_name name = baseName name ++ ("_CRASHLOG.log".toList) ∧
    output_crash_data_file_name name = baseName name ++ ("_CRASHDUMP.txt".toList) := by
  unfold output_crash_log_file_name output_crash_data_file_name
  rw [splitDotHead_eq_takeWhile]
  exact ⟨rfl, rfl⟩

/-- C6: the two Record operations compute and return exactly the paths
`parentDir\Crash Logs\base_CRASHLOG.log` and
`parentDir\Crash Data\base_CRASHDUMP.txt` (the data path only when the
move succeeds, the error propagating otherwise), and each ensures its
directory exists before use. -/
theorem artifact_paths (parentDir tracebackText : Str) (fs : FS)
    (lg : LoggingState) (name path : Str) (b : Bool) :
    (crash_log_manager parentDir tracebackText fs lg name b).2 =
      parentDir ++ sep ++ ("Crash Logs".toList) ++ sep ++
        (baseName name ++ ("_CRASHLOG.log".toList)) ∧
    (crash_log_manager parentDir tracebackText fs lg name b).1.1.dirs
      (parentDir ++ sep ++ ("Crash Logs".toList)) = true ∧
    ((crash_data_manager parentDir fs name path).2 =
        Except.error MoveErr.relocateError ∨
      (crash_data_manager parentDir fs name path).2 =
        Except.ok (parentDir ++ sep ++ ("Crash Data".toList) ++ sep ++
          (baseName name ++ ("_CRASHDUMP.txt".toList)))) ∧
    (crash_data_manager parentDir fs name path).1.dirs
      (parentDir ++ sep ++ ("Crash Data".toList)) = true := by
  obtain ⟨hret, -, -, hdirs⟩ :=
    crash_log_manager_eq parentDir tracebackText fs lg name b
  have hlogpath : output_crash_log_file_path parentDir name =
      parentDir ++ sep ++ ("Crash Logs".toList) ++ sep ++
        (baseName name ++ ("_CRASHLOG.log".toList)) := by
    unfold output_crash_log_file_path output_crash_log_folder_path
      output_crash_log_file_name
    rw [splitDotHead_eq_takeWhile]
  have hdatapath : output_crash_data_file_path parentDir name =
      parentDir ++ sep ++ ("Crash Data".toList) ++ sep ++
        (baseName name ++ ("_CRASHDUMP.txt".toList)) := by
    unfold output_crash_data_file_path output_crash_data_folder_path
      output_crash_data_file_name
    rw [splitDotHead_eq_takeWhile]
  refine ⟨hlogpath ▸ hret, ?_, ?_, ?_⟩
  · rw [hdirs]
    exact ensureDir_dirs_self fs (output_crash_log_folder_path parentDir)
  · cases hsrc : fs.files path with
    | none =>
        left
        rw [crash_data_manager_missing parentDir fs name path hsrc]
    | some c =>
        right
        obtain ⟨h2, -, -⟩ := crash_data_manager_found parentDir fs name path c hsrc
        rw [h2, hdatapath]
  · cases hsrc : fs.files path with
    | none =>
        rw [crash_data_manager_missing parentDir fs name path hsrc]
        exact ensureDir_dirs_self fs (output_crash_data_folder_path parentDir)
    | some c =>
        obtain ⟨-, -, h3⟩ := crash_data_manager_found parentDir fs name path c hsrc
        rw [h3]
        exact ensureDir_dirs_self fs (output_crash_data_folder_path parentDir)

/-- C8: `crash_log_manager` returns the derived log path, appends
exactly one error-level record to the file at that path — the traceback
text of the in-flight exception when the flag is false, the fixed
placeholder `customLogMessage` verbatim when it is true — and touches no
other file; being a total function of the supplied diagnostic text, it
neither raises nor no-ops when no active exception exists. -/
theorem crash_log_writes_one_record (parentDir tracebackText : Str)
    (fs : FS) (lg : LoggingState) (name : Str) (b : Bool) :
    (crash_log_manager parentDir tracebackText fs lg name b).2 =
      output_crash_log_file_path parentDir name ∧
    (crash_log_manager parentDir tracebackText fs lg name b).1.1.files
      (output_crash_log_file_path parentDir name) =
      some ((fs.files (output_crash_log_file_path parentDir name)).getD [] ++
        logRecord (if b then customLogMessage else tracebackText)) ∧
    (crash_log_manager parentDir tracebackText fs lg name b).1.2.target =
      some (output_crash_log_file_path parentDir name) ∧
    UnchangedExcept fs.files
      (crash_log_manager parentDir tracebackText fs lg name b).1.1.files
      (output_crash_log_file_path parentDir name) := by
  obtain ⟨hret, htgt, hfiles, -⟩ :=
    crash_log_manager_eq parentDir tracebackText fs lg name b
  refine ⟨hret, ?_, htgt, fun q hq => ?_⟩
  · rw [hfiles]
    simp
  · rw [hfiles]
    simp [hq]

/-- C7 counterexample: the input names `run.txt` and `run.bin` are
different, yet the two successive crash-log calls derive the same log
path, and after the second call that single file holds the first call's
record with the second call's record appended after it — not two
independent files. -/
theorem crash_log_crosscontamination_cex :
    ("run.txt".toList) ≠ ("run.bin".toList) ∧
    c7run1.2 = c7run2.2 ∧
    c7run2.1.1.files c7run1.2 = some (logRecord ['a'] ++ logRecord ['b']) := by
  refine ⟨by decide, rfl, by decide⟩

/-- C7 (amended): two successive crash-log calls whose input names have
different base names (before the first dot) produce two independent log
files, each holding only its own record; with equal base names the two
calls share one derived path and the second record is appended to the
first call's file. -/
theorem crash_log_independent (parentDir e1 e2 : Str) (fs : FS)
    (lg : LoggingState) (n1 n2 : Str) (b1 b2 : Bool)
    (hbase : baseName n1 ≠ baseName n2)
    (h1 : fs.files (output_crash_log_file_path parentDir n1) = none)
    (h2 : fs.files (output_crash_log_file_path parentDir n2) = none) :
    output_crash_log_file_path parentDir n1 ≠
      output_crash_log_file_path parentDir n2 ∧
    (crash_log_manager parentDir e2
        (crash_log_manager parentDir e1 fs lg n1 b1).1.1
        (crash_log_manager parentDir e1 fs lg n1 b1).1.2 n2 b2).1.1.files
      (output_crash_log_file_path parentDir n1) =
      some (logRecord (if b1 then customLogMessage else e1)) ∧
    (crash_log_manager parentDir e2
        (crash_log_manager parentDir e1 fs lg n1 b1).1.1
        (crash_log_manager parentDir e1 fs lg n1 b1).1.2 n2 b2).1.1.files
      (output_crash_log_file_path parentDir n2) =
      some (logRecord (if b2 then customLogMessage else e2)) := by
  have hne : output_crash_log_file_path parentDir n1 ≠
      output_crash_log_file_path parentDir n2 := by
    intro h
    apply hbase
    unfold output_crash_log_file_path output_crash_log_file_name at h
    have h' := List.append_cancel_left h
    rw [← splitDotHead_eq_takeWhile, ← splitDotHead_eq_takeWhile]
    exact List.append_cancel_right h'
  obtain ⟨-, -, hfilesA, -⟩ :=
    crash_log_manager_eq parentDir e1 fs lg n1 b1
  obtain ⟨-, -, hfilesB, -⟩ :=
    crash_log_manager_eq parentDir e2
      (crash_log_manager parentDir e1 fs lg n1 b1).1.1
      (crash_log_manager parentDir e1 fs lg n1 b1).1.2 n2 b2
  refine ⟨hne, ?_, ?_⟩
  · rw [hfilesB, if_neg hne, hfilesA, if_pos rfl, h1]
    simp
  · rw [hfilesB, if_pos rfl, hfilesA, if_neg (fun h => hne h.symm), h2]
    simp

/-- Witness for the amended C7 theorem on the names `a.txt`, `b.txt`. -/
theorem crash_log_independent_witness :
    output_crash_log_file_path ['P'] ("a.txt".toList) ≠
      output_crash_log_file_path ['P'] ("b.txt".toList) ∧
    c7wB.1.1.files (output_crash_log_file_path ['P'] ("a.txt".toList)) =
      some (logRecord ['a']) ∧
    c7wB.1.1.files (output_crash_log_file_path ['P'] ("b.txt".toList)) =
      some (logRecord ['b']) :=
  crash_log_independent ['P'] ['a'] ['b'] emptyFS noLog
    ("a.txt".toList) ("b.txt".toList) false false (by decide) rfl rfl

/-- C4 counterexample: when the existing source file already sits at the
derived crash-data path (source path equal to destination path), the
call succeeds and returns that path, yet a file still remains at the
source path afterwards, refuting the claim's "no file remains at
outputFilePath" for that input. -/
theorem record_crash_data_move_cex :
    c4fs.files c4src = some ['x'] ∧
    (crash_data_manager ['P'] c4fs c4name c4src).2 = Except.ok c4src ∧
    (crash_data_manager ['P'] c4fs c4name c4src).1.files c4src = some ['x'] := by
  refine ⟨rfl, rfl, by decide⟩

/-- C4 (amended): for every existing source file whose path differs from
the derived crash-data path, `crash_data_manager` moves it: afterwards
no file remains at the source path, the derived path holds the original
content, and that derived path is the returned value. -/
theorem record_crash_data_moves (parentDir : Str) (fs : FS)
    (name path c : Str) (hsrc : fs.files path = some c)
    (hne : path ≠ output_crash_data_file_path parentDir name) :
    (crash_data_manager parentDir fs name path).2 =
      Except.ok (output_crash_data_file_path parentDir name) ∧
    (crash_data_manager parentDir fs name path).1.files path = none ∧
    (crash_data_manager parentDir fs name path).1.files
      (output_crash_data_file_path parentDir name) = some c := by
  obtain ⟨hret, hfiles, -⟩ :=
    crash_data_manager_found parentDir fs name path c hsrc
  refine ⟨hret, ?_, ?_⟩
  · rw [hfiles, if_neg hne, if_pos rfl]
  · rw [hfiles, if_pos rfl]

/-- Witness for the amended C4 theorem: a file at path `w` is moved to
the derived crash-data path. -/
theorem record_crash_data_moves_witness :
    (crash_data_manager ['P'] c4wfs c4name ['w']).2 =
      Except.ok (output_crash_data_file_path ['P'] c4name) ∧
    (crash_data_manager ['P'] c4wfs c4name ['w']).1.files ['w'] = none ∧
    (crash_data_manager ['P'] c4wfs c4name ['w']).1.files
      (output_crash_data_file_path ['P'] c4name) = some ['x'] :=
  record_crash_data_moves ['P'] c4wfs c4name ['w'] ['x'] rfl (by decide)

/-- C9: when no file exists at the source path, `crash_data_manager`
raises `RelocateError` (a single move attempt, never retried in the
model) and performs no side effect beyond the already-completed
directory-ensure step: the file map is exactly the input's, and the
directory predicate is unchanged except at the crash-data directory. -/
theorem record_crash_data_missing (parentDir : Str) (fs : FS)
    (name path : Str) (h : fs.files path = none) :
    (crash_data_manager parentDir fs name path).2 =
      Except.error MoveErr.relocateError ∧
    (crash_data_manager parentDir fs name path).1.files = fs.files ∧
    (crash_data_manager parentDir fs name path).1.dirs
      (output_crash_data_folder_path parentDir) = true ∧
    DirsUnchangedExcept fs (crash_data_manager parentDir fs name path).1
      (output_crash_data_folder_path parentDir) := by
  rw [crash_data_manager_missing parentDir fs name path h]
  exact ⟨rfl, ensureDir_files fs (output_crash_data_folder_path parentDir),
    ensureDir_dirs_self fs (output_crash_data_folder_path parentDir),
    fun q hq => ensureDir_dirs_ne fs (output_crash_data_folder_path parentDir) q hq⟩

/-- Witness for C9 on an empty filesystem and source path `w`. -/
theorem record_crash_data_missing_witness :
    (crash_data_manager ['P'] emptyFS c4name ['w']).2 =
      Except.error MoveErr.relocateError ∧
    (crash_data_manager ['P'] emptyFS c4name ['w']).1.files = emptyFS.files ∧
    (crash_data_manager ['P'] emptyFS c4name ['w']).1.dirs
      (output_crash_data_folder_path ['P']) = true ∧
    DirsUnchangedExcept emptyFS (crash_data_manager ['P'] emptyFS c4name ['w']).1
      (output_crash_data_folder_path ['P']) :=
  record_crash_data_missing ['P'] emptyFS c4name ['w'] rfl

/-- C10: two distinct input names with equal base names (before the
first dot) derive the identical log path and the identical data path,
and a later `crash_data_manager` call for the second name overwrites the
artifact stored at that shared data path. -/
theorem base_name_collision (parentDir n1 n2 : Str)
    (_hne : n1 ≠ n2) (hbase : baseName n1 = baseName n2) :
    output_crash_log_file_path parentDir n1 =
      output_crash_log_file_path parentDir n2 ∧
    output_crash_data_file_path parentDir n1 =
      output_crash_data_file_path parentDir n2 ∧
    Replaces parentDir n2 := by
  have hhead : splitDotHead n1 = splitDotHead n2 := by
    rw [splitDotHead_eq_takeWhile, splitDotHead_eq_takeWhile]
    exact hbase
  refine ⟨?_, ?_, ?_⟩
  · unfold output_crash_log_file_path output_crash_log_file_name
    rw [hhead]
  · unfold output_crash_data_file_path output_crash_data_file_name
    rw [hhead]
  · intro fs path c hsrc hnep
    obtain ⟨-, hfiles, -⟩ :=
      crash_data_manager_found parentDir fs n2 path c hsrc
    rw [hfiles, if_pos rfl]

/-- Witness for C10 on the names `run.txt` and `run.bin`. -/
theorem base_name_collision_witness :
    output_crash_log_file_path ['P'] ("run.txt".toList) =
      output_crash_log_file_path ['P'] ("run.bin".toList) ∧
    output_crash_data_file_path ['P'] ("run.txt".toList) =
      output_crash_data_file_path ['P'] ("run.bin".toList) ∧
    Replaces ['P'] ("run.bin".toList) :=
  base_name_collision ['P'] ("run.txt".toList) ("run.bin".toList)
    (by decide) (by decide)

end AppGui
